import Mathlib

/-!
# Verification of the AI-Tactician backend core

A shallow embedding of the Python backend (`backend/tools.py`,
`backend/mock_api.py`, `backend/agent.py`, `backend/main.py`) together with
proofs of the specified properties of the tool registry, the agent loop, the
stream adapter and the chat endpoint.

Modelling conventions:
* Python dicts/JSON documents are modelled by the inductive `Json`;
  a Python keyword-argument dict is an association list `ToolInput`.
* Python exceptions that can escape the modelled code are made explicit:
  fallible functions return `Except PyError _`.
* `json.dumps` is modelled by `Json.dumps` (default separators `", "` and
  `": "`, standard short escapes; the `ensure_ascii` transliteration of
  non-ASCII characters is not modelled since no property depends on it).
* Values produced by `uuid.uuid4()` / `datetime.now()` inside mock draft
  responses are opaque to every verified property; they are modelled by
  fixed placeholder strings.  The uuids generated by the stream adapter do
  matter (freshness), so they are modelled by an injective generator
  `uuid4` driven by an explicit counter.
* The JSON documents under `backend/mock_data/` are data, not code: they are
  modelled by an arbitrary `MockData` record that every theorem quantifies
  over.
-/

/-- A JSON value, the shape of data passed between the Python components. -/
inductive Json where
  | null : Json
  | bool (b : Bool) : Json
  | num (n : Int) : Json
  | str (s : String) : Json
  | arr (xs : List Json) : Json
  | obj (fields : List (String × Json)) : Json

/-- Python exceptions that the modelled code can raise. -/
inductive PyError where
  | keyError (k : String)
  | typeError (msg : String)
  | attributeError (msg : String)
deriving DecidableEq, Repr

/-- `str(exc)` for the modelled exceptions (a `KeyError` prints its key in
quotes). -/
def PyError.toStr : PyError → String
  | .keyError k => "'" ++ k ++ "'"
  | .typeError m => m
  | .attributeError m => m

/-- A Python `dict` used as tool input: an association list from field name
to JSON value. -/
def ToolInput := List (String × Json)

/-- `d[k]` on a Python dict: the first binding of `k`, or a `KeyError`. -/
def ToolInput.index (d : ToolInput) (k : String) : Except PyError Json :=
  match d.lookup k with
  | some v => .ok v
  | none => .error (.keyError k)

/-- `d.get(k, default)` on a Python dict. -/
def ToolInput.getD (d : ToolInput) (k : String) (default : Json) : Json :=
  match d.lookup k with
  | some v => v
  | none => default

/-- `d.get(k)` on a Python dict (default `None`). -/
def ToolInput.get? (d : ToolInput) (k : String) : Option Json :=
  d.lookup k

/-- Escape one character as inside a Python `json.dumps` string literal
(standard short escapes; non-ASCII transliteration not modelled). -/
def Json.escapeChar : Char → String
  | '"' => "\\\""
  | '\\' => "\\\\"
  | '\n' => "\\n"
  | '\t' => "\\t"
  | '\r' => "\\r"
  | c => String.singleton c

/-- Escape a whole string for a JSON string literal. -/
def Json.escape (s : String) : String :=
  String.join (s.data.map Json.escapeChar)

mutual

/-- `json.dumps` with Python's default separators. -/
def Json.dumps : Json → String
  | .null => "null"
  | .bool true => "true"
  | .bool false => "false"
  | .num n => toString n
  | .str s => "\"" ++ Json.escape s ++ "\""
  | .arr xs => "[" ++ Json.dumpsList xs ++ "]"
  | .obj fs => "\x7b" ++ Json.dumpsFields fs ++ "\x7d"

/-- Render the elements of a JSON array, separated by `", "`. -/
def Json.dumpsList : List Json → String
  | [] => ""
  | [x] => Json.dumps x
  | x :: y :: rest => Json.dumps x ++ ", " ++ Json.dumpsList (y :: rest)

/-- Render the fields of a JSON object, separated by `", "`. -/
def Json.dumpsFields : List (String × Json) → String
  | [] => ""
  | [(k, v)] => "\"" ++ Json.escape k ++ "\": " ++ Json.dumps v
  | (k, v) :: f :: rest =>
      "\"" ++ Json.escape k ++ "\": " ++ Json.dumps v ++ ", " ++ Json.dumpsFields (f :: rest)

end

/-! ## The mock business-data layer (`backend/mock_api.py`)

The JSON files under `backend/mock_data/` are not code; their contents are
abstracted into a `MockData` record that the functions below read from. -/

/-- The contents of `mock_data/segmentation.json`: two precomputed tier
sets keyed `"no_purchase_90d"` and `"all_customers"`. -/
structure SegmentationFile where
  no_purchase_90d : Json
  all_customers : Json

/-- The JSON documents the mock API reads from disk. -/
structure MockData where
  account_context : Json
  /-- the `"campaigns"` array of `campaign_history.json` -/
  campaigns : List Json
  automations : Json
  segmentation : SegmentationFile
  performance : Json

/-- `get_account_context`: return the full account snapshot. -/
def get_account_context (d : MockData) : Json :=
  d.account_context

/-- Python list slicing `l[:k]` for an `int` index `k` (negative indices
count from the end, clamped at zero). -/
def pySliceTo (l : List Json) (k : Int) : List Json :=
  if 0 ≤ k then l.take k.toNat else l.take (l.length - (-k).toNat)

/-- `get_campaign_history`: returns the stored history with the
`"campaigns"` array truncated to `limit`; slicing with a non-integer limit
raises `TypeError`. -/
def get_campaign_history (d : MockData) (limit : Json) : Except PyError Json :=
  match limit with
  | .num k => .ok (.obj [("campaigns", .arr (pySliceTo d.campaigns k))])
  | _ => .error (.typeError "slice indices must be integers or None or have an __index__ method")

/-- `get_active_automations`: return the stored automations document. -/
def get_active_automations (d : MockData) : Json :=
  d.automations

/-- `base_filter.get("type", "all_subscribers")` — requires `base_filter`
to be a dict, otherwise Python raises `AttributeError`. -/
def baseFilterType (base_filter : Json) : Except PyError Json :=
  match base_filter with
  | .obj fs => .ok (ToolInput.getD fs "type" (.str "all_subscribers"))
  | _ => .error (.attributeError "object has no attribute 'get'")

/-- Python `filter_type == "no_purchase"` (a non-string compares unequal). -/
def Json.eqStr : Json → String → Bool
  | .str s, t => s = t
  | _, _ => false

/-- `segment_contacts`: picks one of the two precomputed tier sets by the
base filter's `type` field alone; the `segmentation_axis` argument is
ignored. -/
def segment_contacts (d : MockData) (base_filter : Json) (_segmentation_axis : Json) :
    Except PyError Json :=
  match baseFilterType base_filter with
  | .error e => .error e
  | .ok ft =>
    if ft.eqStr "no_purchase" then .ok d.segmentation.no_purchase_90d
    else .ok d.segmentation.all_customers

/-- `create_campaign_draft`: returns a draft descriptor.  The
uuid-generated draft id and current timestamp are modelled by fixed
placeholders; no verified property depends on them. -/
def create_campaign_draft : Json :=
  .obj [("draft_id", .str "draft_0a1b2c3d"),
        ("status", .str "draft"),
        ("preview_url", .str "https://app.brevo.com/campaigns/draft_0a1b2c3d/preview"),
        ("created_at", .str "2026-01-01T00:00:00+00:00")]

/-- `trigger.get("audience_filter", {}).get("size")` from
`create_automation_draft`; raises `AttributeError` when `trigger` (or the
audience filter) is not a dict. -/
def triggerEstimated (trigger : Json) : Except PyError Json :=
  match trigger with
  | .obj fs =>
      match ToolInput.getD fs "audience_filter" (.obj []) with
      | .obj afs =>
          match ToolInput.get? afs "size" with
          | some v => .ok v
          | none => .ok .null
      | _ => .error (.attributeError "object has no attribute 'get'")
  | _ => .error (.attributeError "object has no attribute 'get'")

/-- `create_automation_draft`: returns a workflow-draft descriptor, with the
estimated audience taken from the input when supplied, else from the
trigger's audience filter.  Uuid and timestamp are fixed placeholders. -/
def create_automation_draft (trigger : Json) (estimated_kw : Option Json) :
    Except PyError Json :=
  match (match estimated_kw with
         | some v => .ok v
         | none => triggerEstimated trigger : Except PyError Json) with
  | .error e => .error e
  | .ok estimated =>
    .ok (.obj [("workflow_id", .str "wf_draft_0a1b2c3d"),
               ("status", .str "draft"),
               ("preview_url", .str "https://app.brevo.com/automations/wf_draft_0a1b2c3d/preview"),
               ("created_at", .str "2026-01-01T00:00:00+00:00"),
               ("estimated_contacts_entering", estimated)])

/-- `get_campaign_performance`: returns the stored metrics, ignoring the
period argument. -/
def get_campaign_performance (d : MockData) (_period : Json) : Json :=
  d.performance

/-! ## Tool dispatch (`backend/tools.py`) -/

/-- The required keyword parameters of `create_campaign_draft`. -/
def campaignDraftRequired : List String :=
  ["name", "channel", "cohort", "audience_size", "content", "schedule"]

/-- The required keyword parameters of `create_automation_draft`. -/
def automationDraftRequired : List String :=
  ["name", "cohort", "trigger", "steps", "exit_conditions"]

/-- `f(**d)` for a function with required parameters `req`: the first
missing required key raises `TypeError`. -/
def missingRequired (req : List String) (input : ToolInput) : Option String :=
  req.find? (fun k => (input.lookup k).isNone)

/-- `handle_tool_call`: dispatch a tool call by name to the matching mock
API function; an unknown name yields an `error` object rather than
raising, while the handlers themselves may raise on malformed input. -/
def handle_tool_call (d : MockData) (tool_name : String) (tool_input : ToolInput) :
    Except PyError Json :=
  if tool_name = "get_account_context" then
    .ok (get_account_context d)
  else if tool_name = "get_campaign_history" then
    get_campaign_history d (tool_input.getD "limit" (.num 10))
  else if tool_name = "get_active_automations" then
    .ok (get_active_automations d)
  else if tool_name = "segment_contacts" then
    match tool_input.index "base_filter" with
    | .error e => .error e
    | .ok bf =>
      match tool_input.index "segmentation_axis" with
      | .error e => .error e
      | .ok ax => segment_contacts d bf ax
  else if tool_name = "create_campaign_draft" then
    match missingRequired campaignDraftRequired tool_input with
    | some k => .error (.typeError ("create_campaign_draft() missing required argument: '" ++ k ++ "'"))
    | none => .ok create_campaign_draft
  else if tool_name = "create_automation_draft" then
    match missingRequired automationDraftRequired tool_input with
    | some k => .error (.typeError ("create_automation_draft() missing required argument: '" ++ k ++ "'"))
    | none =>
      match tool_input.index "trigger" with
      | .error e => .error e
      | .ok trigger =>
        create_automation_draft trigger (tool_input.get? "estimated_contacts_entering")
  else if tool_name = "get_campaign_performance" then
    .ok (get_campaign_performance d (tool_input.getD "period" (.str "last_30d")))
  else
    .ok (.obj [("error", .str ("Unknown tool: " ++ tool_name))])

/-! ## The agent loop (`backend/agent.py`) -/

/-- One content block of a model response: a text segment or a tool-use
request. -/
inductive Block where
  | text (s : String)
  | toolUse (id : String) (name : String) (input : ToolInput)

/-- A model response: ordered content blocks plus a stop reason. -/
structure Response where
  content : List Block
  stop_reason : String

/-- The events yielded by `run_agent_stream`. -/
inductive AgentEvent where
  | textDelta (content : String)
  | toolCallStart (tool : String) (input : ToolInput)
  | toolResult (tool : String) (result : Json)
  | messageDone

/-- The content of a conversation message: a plain string from the client,
a verbatim block list from a model response, or a list of tool-result
items `(tool_use_id, serialized output)`. -/
inductive MsgContent where
  | raw (j : Json)
  | blocks (bs : List Block)
  | toolResults (items : List (String × String))

/-- A conversation message. -/
structure Message where
  role : String
  content : MsgContent

/-- `{"role": "assistant", "content": response.content}` — the assistant's
full response content, verbatim. -/
def assistantMsg (content : List Block) : Message :=
  ⟨"assistant", .blocks content⟩

/-- The synthetic user message carrying one serialized tool result tagged
with the originating tool-call id. -/
def toolResultMsg (id : String) (result : Json) : Message :=
  ⟨"user", .toolResults [(id, Json.dumps result)]⟩

/-- Whether a block is a tool-use request. -/
def Block.isToolUse : Block → Bool
  | .toolUse .. => true
  | _ => false

/-- Whether a response contains any tool-use block (the loop's
`has_tool_use` flag after the round's `for` loop). -/
def hasToolUse (r : Response) : Bool :=
  r.content.any Block.isToolUse

/-- The loop's termination test:
`response.stop_reason == "end_turn" or not has_tool_use`. -/
def stopCond (r : Response) : Bool :=
  r.stop_reason = "end_turn" || !hasToolUse r

/-- The body of the round's `for block in response.content` loop: yields
events in block order and appends, per tool-use block, the assistant's
full response content and the synthetic tool-result message.  A tool
handler that raises aborts the round with the events yielded so far. -/
def processBlocks (d : MockData) (full : List Block) :
    List Block → List Message → (List AgentEvent × List Message) ⊕ (List AgentEvent × PyError)
  | [], conv => .inl ([], conv)
  | .text s :: rest, conv =>
    match processBlocks d full rest conv with
    | .inl (evs, c) => .inl (.textDelta s :: evs, c)
    | .inr (evs, e) => .inr (.textDelta s :: evs, e)
  | .toolUse id name inp :: rest, conv =>
    match handle_tool_call d name inp with
    | .error e => .inr ([.toolCallStart name inp], e)
    | .ok result =>
      let conv' := conv ++ [assistantMsg full, toolResultMsg id result]
      match processBlocks d full rest conv' with
      | .inl (evs, c) => .inl (.toolCallStart name inp :: .toolResult name result :: evs, c)
      | .inr (evs, e) => .inr (.toolCallStart name inp :: .toolResult name result :: evs, e)

/-- One scripted behaviour of `client.messages.create`: a response, or a
backend failure raising with the given message. -/
def ModelRound := Except String Response

/-- Outcome of a run of the agent loop: normal termination with the full
event sequence and final conversation, an escaped exception (with the
events yielded before the raise), or exhaustion of the finite response
script before the loop terminated. -/
inductive RunOutcome where
  | finished (events : List AgentEvent) (conv : List Message)
  | raised (events : List AgentEvent) (msg : String)
  | outOfScript (events : List AgentEvent) (conv : List Message)

/-- Prepend already-yielded events to a run outcome. -/
def RunOutcome.withEvents (evs : List AgentEvent) : RunOutcome → RunOutcome
  | .finished e c => .finished (evs ++ e) c
  | .raised e m => .raised (evs ++ e) m
  | .outOfScript e c => .outOfScript (evs ++ e) c

/-- `run_agent_stream`: the tool-calling loop, driven by a finite script of
model behaviours (the loop itself imposes no round limit, so a script that
never satisfies the termination test ends in `outOfScript`). -/
def run_agent_stream (d : MockData) : List ModelRound → List Message → RunOutcome
  | [], conv => .outOfScript [] conv
  | .error msg :: _, _ => .raised [] msg
  | .ok r :: rest, conv =>
    match processBlocks d r.content r.content conv with
    | .inr (evs, e) => .raised evs e.toStr
    | .inl (evs, conv') =>
      if stopCond r then .finished (evs ++ [.messageDone]) conv'
      else (run_agent_stream d rest conv').withEvents evs

/-! ## The stream adapter (`backend/main.py`) -/

/-- `str(uuid.uuid4())`, modelled as a deterministic injective sequence of
fresh strings driven by the adapter's generation counter. -/
def uuid4 (n : Nat) : String :=
  String.mk (List.replicate (n + 1) 'u')

/-- A wire-protocol record before serialization: one-character tag and
JSON payload. -/
def WireRecord := String × Json

/-- The wire records written for one agent event, threading the uuid
counter (`text_delta` → one `0` record; `tool_call_start` → one `9` record
with a freshly generated `toolCallId`; `tool_result` → one `a` record with
a freshly generated `toolCallId`; `message_done` → the `e` record then the
`d` record). -/
def eventRecords : AgentEvent → Nat → List WireRecord × Nat
  | .textDelta s, n => ([("0", .str s)], n)
  | .toolCallStart t inp, n =>
    ([("9", .obj [("toolCallId", .str (uuid4 n)), ("toolName", .str t),
                  ("args", .obj inp)])], n + 1)
  | .toolResult t r, n =>
    ([("a", .obj [("toolCallId", .str (uuid4 n)), ("toolName", .str t),
                  ("result", r)])], n + 1)
  | .messageDone, n =>
    ([("e", .obj [("finishReason", .str "stop"),
                  ("usage", .obj [("promptTokens", .num 0), ("completionTokens", .num 0)])]),
      ("d", .obj [("finishReason", .str "stop")])], n)

/-- The records written while consuming a stream of agent events. -/
def streamRecords : List AgentEvent → Nat → List WireRecord
  | [], _ => []
  | e :: rest, n =>
    match eventRecords e n with
    | (rs, n') => rs ++ streamRecords rest n'

/-- The `except` branch of `_stream_response`: one `0` record with a
human-readable error annotation, then an `e` and a `d` record carrying the
error finish reason. -/
def errorRecords (msg : String) : List WireRecord :=
  [("0", .str ("\n\n⚠️ Error: " ++ msg)),
   ("e", .obj [("finishReason", .str "error")]),
   ("d", .obj [("finishReason", .str "error")])]

/-- `_stream_response`: the records written for the events the agent
delivered, followed — when consuming the stream raised an exception — by
the graceful error-termination records. -/
def stream_response (evs : List AgentEvent) (err : Option String) : List WireRecord :=
  streamRecords evs 0 ++ (match err with | none => [] | some m => errorRecords m)

/-- Serialize one wire record: `tag:payload\n`. -/
def serializeRecord : WireRecord → String
  | (tag, payload) => tag ++ ":" ++ Json.dumps payload ++ "\n"

/-- The newline-delimited wire output of `_stream_response`. -/
def streamLines (evs : List AgentEvent) (err : Option String) : List String :=
  (stream_response evs err).map serializeRecord

/-! ## The chat endpoint (`backend/main.py`) -/

/-- The process-wide `_conversations` mapping: conversation id → message
history. -/
def ConversationStore := List (String × List Message)

/-- One entry of the request body's `messages` array converted to
Anthropic format: kept (with defaulted role/content) when its role is
`user` or `assistant`, dropped otherwise; a non-dict entry raises. -/
def convertMessage : Json → Except PyError (Option Message)
  | .obj fs =>
    let role := ToolInput.getD fs "role" (.str "user")
    let content := ToolInput.getD fs "content" (.str "")
    if role.eqStr "user" then .ok (some ⟨"user", .raw content⟩)
    else if role.eqStr "assistant" then .ok (some ⟨"assistant", .raw content⟩)
    else .ok none
  | _ => .error (.attributeError "object has no attribute 'get'")

/-- The conversion loop of the `chat` handler over the request body's
`messages` array. -/
def anthropicMessages : List Json → Except PyError (List Message)
  | [] => .ok []
  | m :: rest => do
    let conv ← convertMessage m
    let others ← anthropicMessages rest
    match conv with
    | some msg => .ok (msg :: others)
    | none => .ok others

/-- The `chat` handler, threaded through the module state: given the
current `_conversations` store and the request body's `messages` array, it
returns the (unchanged) store and the message history handed to
`run_agent_stream`.  The store is neither read nor written. -/
def chat (store : ConversationStore) (messages : List Json) :
    ConversationStore × Except PyError (List Message) :=
  (store, anthropicMessages messages)

/-! ## Helper characterizations of the round processing -/

/-- Discriminator for the `message_done` event. -/
def isMessageDone : AgentEvent → Bool
  | .messageDone => true
  | _ => false

/-- The events the round's `for` loop yields for one content block. -/
def blockEvents (d : MockData) : Block → List AgentEvent
  | .text s => [.textDelta s]
  | .toolUse _ name inp =>
    match handle_tool_call d name inp with
    | .ok result => [.toolCallStart name inp, .toolResult name result]
    | .error _ => [.toolCallStart name inp]

/-- The conversation entries appended for one content block: none for a
text block; for a tool-use block, the assistant's full response content
followed by the synthetic tool-result user message. -/
def blockAppends (d : MockData) (full : List Block) : Block → List Message
  | .text _ => []
  | .toolUse id name inp =>
    match handle_tool_call d name inp with
    | .ok result => [assistantMsg full, toolResultMsg id result]
    | .error _ => []

/-- Every `tool_call_start` in the list is immediately followed by the
matching `tool_result`: same tool, carrying exactly the dispatched
handler's output, at the very next position. -/
def startsFollowed (d : MockData) (evs : List AgentEvent) : Prop :=
  ∀ i t inp, evs[i]? = some (.toolCallStart t inp) →
    ∃ r, handle_tool_call d t inp = .ok r ∧ evs[i+1]? = some (.toolResult t r)

theorem processBlocks_inl_events (d : MockData) (full : List Block) :
    ∀ (blocks : List Block) (conv : List Message) (evs : List AgentEvent) (conv' : List Message),
    processBlocks d full blocks conv = .inl (evs, conv') →
    evs = blocks.flatMap (blockEvents d) := by
  intro blocks
  induction blocks with
  | nil =>
    intro conv evs conv' h
    simp only [processBlocks, Sum.inl.injEq, Prod.mk.injEq] at h
    simp [← h.1]
  | cons b rest ih =>
    intro conv evs conv' h
    cases b with
    | text s =>
      cases hpb : processBlocks d full rest conv with
      | inl p =>
        obtain ⟨evs1, c1⟩ := p
        simp only [processBlocks, hpb, Sum.inl.injEq, Prod.mk.injEq] at h
        obtain ⟨h1, h2⟩ := h
        subst h1
        simp [blockEvents, ih conv evs1 c1 hpb]
      | inr p =>
        simp [processBlocks, hpb] at h
    | toolUse id name inp =>
      cases hh : handle_tool_call d name inp with
      | error e =>
        simp [processBlocks, hh] at h
      | ok result =>
        cases hpb : processBlocks d full rest (conv ++ [assistantMsg full, toolResultMsg id result]) with
        | inl p =>
          obtain ⟨evs1, c1⟩ := p
          simp only [processBlocks, hh, hpb, Sum.inl.injEq, Prod.mk.injEq] at h
          obtain ⟨h1, h2⟩ := h
          subst h1
          simp [blockEvents, hh, ih _ evs1 c1 hpb]
        | inr p =>
          simp [processBlocks, hh, hpb] at h

theorem processBlocks_inl_conv (d : MockData) (full : List Block) :
    ∀ (blocks : List Block) (conv : List Message) (evs : List AgentEvent) (conv' : List Message),
    processBlocks d full blocks conv = .inl (evs, conv') →
    conv' = conv ++ blocks.flatMap (blockAppends d full) := by
  intro blocks
  induction blocks with
  | nil =>
    intro conv evs conv' h
    simp only [processBlocks, Sum.inl.injEq, Prod.mk.injEq] at h
    simp [← h.2]
  | cons b rest ih =>
    intro conv evs conv' h
    cases b with
    | text s =>
      cases hpb : processBlocks d full rest conv with
      | inl p =>
        obtain ⟨evs1, c1⟩ := p
        simp only [processBlocks, hpb, Sum.inl.injEq, Prod.mk.injEq] at h
        obtain ⟨h1, h2⟩ := h
        subst h2
        simp [blockAppends, ih conv evs1 c1 hpb]
      | inr p =>
        simp [processBlocks, hpb] at h
    | toolUse id name inp =>
      cases hh : handle_tool_call d name inp with
      | error e =>
        simp [processBlocks, hh] at h
      | ok result =>
        cases hpb : processBlocks d full rest (conv ++ [assistantMsg full, toolResultMsg id result]) with
        | inl p =>
          obtain ⟨evs1, c1⟩ := p
          simp only [processBlocks, hh, hpb, Sum.inl.injEq, Prod.mk.injEq] at h
          obtain ⟨h1, h2⟩ := h
          subst h2
          simp [blockAppends, hh, ih _ evs1 c1 hpb]
        | inr p =>
          simp [processBlocks, hh, hpb] at h

theorem blockEvents_no_messageDone (d : MockData) (b : Block) :
    (blockEvents d b).countP isMessageDone = 0 := by
  cases b with
  | text s => simp [blockEvents, isMessageDone]
  | toolUse id name inp =>
    cases hh : handle_tool_call d name inp with
    | ok result => simp [blockEvents, hh, isMessageDone]
    | error e => simp [blockEvents, hh, isMessageDone]

theorem flatMap_blockEvents_no_messageDone (d : MockData) (blocks : List Block) :
    (blocks.flatMap (blockEvents d)).countP isMessageDone = 0 := by
  induction blocks with
  | nil => simp
  | cons b rest ih =>
    simp [List.flatMap_cons, List.countP_append, ih, blockEvents_no_messageDone]

theorem startsFollowed_cons_textDelta (d : MockData) (s : String) (evs : List AgentEvent)
    (h : startsFollowed d evs) : startsFollowed d (.textDelta s :: evs) := by
  intro i t inp hi
  cases i with
  | zero => simp at hi
  | succ j =>
    simp only [List.getElem?_cons_succ] at hi ⊢
    exact h j t inp hi

theorem startsFollowed_append (d : MockData) (l1 l2 : List AgentEvent)
    (h1 : startsFollowed d l1) (h2 : startsFollowed d l2) :
    startsFollowed d (l1 ++ l2) := by
  intro i t inp hi
  by_cases hlt : i < l1.length
  · rw [List.getElem?_append, if_pos hlt] at hi
    obtain ⟨r, hr, hnext⟩ := h1 i t inp hi
    refine ⟨r, hr, ?_⟩
    have hlt1 : i + 1 < l1.length := by
      by_contra hge
      push_neg at hge
      rw [List.getElem?_eq_none hge] at hnext
      exact Option.noConfusion hnext
    rw [List.getElem?_append, if_pos hlt1]
    exact hnext
  · push_neg at hlt
    rw [List.getElem?_append_right hlt] at hi
    obtain ⟨r, hr, hnext⟩ := h2 (i - l1.length) t inp hi
    refine ⟨r, hr, ?_⟩
    rw [List.getElem?_append_right (le_trans hlt (Nat.le_succ i))]
    have heq : i + 1 - l1.length = i - l1.length + 1 := by omega
    rw [heq]
    exact hnext

theorem startsFollowed_messageDone (d : MockData) : startsFollowed d [.messageDone] := by
  intro i t inp hi
  cases i with
  | zero => simp at hi
  | succ j => simp at hi

theorem processBlocks_inl_startsFollowed (d : MockData) (full : List Block) :
    ∀ (blocks : List Block) (conv : List Message) (evs : List AgentEvent) (conv' : List Message),
    processBlocks d full blocks conv = .inl (evs, conv') → startsFollowed d evs := by
  intro blocks
  induction blocks with
  | nil =>
    intro conv evs conv' h i t inp hi
    simp only [processBlocks, Sum.inl.injEq, Prod.mk.injEq] at h
    rw [← h.1] at hi
    simp at hi
  | cons b rest ih =>
    intro conv evs conv' h
    cases b with
    | text s =>
      cases hpb : processBlocks d full rest conv with
      | inl p =>
        obtain ⟨evs1, c1⟩ := p
        simp only [processBlocks, hpb, Sum.inl.injEq, Prod.mk.injEq] at h
        obtain ⟨h1, h2⟩ := h
        subst h1
        exact startsFollowed_cons_textDelta d s evs1 (ih conv evs1 c1 hpb)
      | inr p => simp [processBlocks, hpb] at h
    | toolUse id name inp0 =>
      cases hh : handle_tool_call d name inp0 with
      | error e => simp [processBlocks, hh] at h
      | ok result =>
        cases hpb : processBlocks d full rest (conv ++ [assistantMsg full, toolResultMsg id result]) with
        | inl p =>
          obtain ⟨evs1, c1⟩ := p
          simp only [processBlocks, hh, hpb, Sum.inl.injEq, Prod.mk.injEq] at h
          obtain ⟨h1, h2⟩ := h
          subst h1
          have htail := ih _ evs1 c1 hpb
          intro i t inp hi
          match i, hi with
          | 0, hi =>
            simp only [List.getElem?_cons_zero, Option.some.injEq] at hi
            cases hi
            exact ⟨result, hh, by simp⟩
          | 1, hi => simp at hi
          | (j+2), hi =>
            simp only [List.getElem?_cons_succ] at hi ⊢
            exact htail j t inp hi
        | inr p => simp [processBlocks, hh, hpb] at h

/-! ## Run-level lemmas for the agent loop -/

theorem run_finished_messageDone (d : MockData) :
    ∀ (script : List ModelRound) (conv : List Message) (evs : List AgentEvent) (conv' : List Message),
    run_agent_stream d script conv = .finished evs conv' →
    evs.countP isMessageDone = 1 ∧ evs.getLast? = some .messageDone := by
  intro script
  induction script with
  | nil =>
    intro conv evs conv' h
    simp [run_agent_stream] at h
  | cons hd rest ih =>
    intro conv evs conv' h
    cases hd with
    | error msg => simp [run_agent_stream] at h
    | ok r =>
      simp only [run_agent_stream] at h
      cases hpb : processBlocks d r.content r.content conv with
      | inr p => rw [hpb] at h; simp at h
      | inl p =>
        obtain ⟨evs0, conv0⟩ := p
        rw [hpb] at h
        dsimp only at h
        have hevs0 : evs0.countP isMessageDone = 0 := by
          rw [processBlocks_inl_events d r.content r.content conv evs0 conv0 hpb]
          exact flatMap_blockEvents_no_messageDone d r.content
        by_cases hstop : stopCond r
        · rw [if_pos hstop] at h
          simp only [RunOutcome.finished.injEq] at h
          obtain ⟨h1, h2⟩ := h
          subst h1
          constructor
          · simp [List.countP_append, hevs0, isMessageDone]
          · exact List.getLast?_concat evs0
        · rw [if_neg hstop] at h
          cases hrec : run_agent_stream d rest conv0 with
          | finished evs1 c1 =>
            rw [hrec] at h
            simp only [RunOutcome.withEvents, RunOutcome.finished.injEq] at h
            obtain ⟨h1, h2⟩ := h
            subst h1
            obtain ⟨ihc, ihl⟩ := ih conv0 evs1 c1 hrec
            have hne : evs1 ≠ [] := by
              intro hnil
              rw [hnil] at ihl
              simp at ihl
            constructor
            · simp [List.countP_append, hevs0, ihc]
            · rw [List.getLast?_append_of_ne_nil evs0 hne]
              exact ihl
          | raised evs1 m => rw [hrec] at h; simp [RunOutcome.withEvents] at h
          | outOfScript evs1 c1 => rw [hrec] at h; simp [RunOutcome.withEvents] at h

theorem run_finished_startsFollowed (d : MockData) :
    ∀ (script : List ModelRound) (conv : List Message) (evs : List AgentEvent) (conv' : List Message),
    run_agent_stream d script conv = .finished evs conv' → startsFollowed d evs := by
  intro script
  induction script with
  | nil =>
    intro conv evs conv' h
    simp [run_agent_stream] at h
  | cons hd rest ih =>
    intro conv evs conv' h
    cases hd with
    | error msg => simp [run_agent_stream] at h
    | ok r =>
      simp only [run_agent_stream] at h
      cases hpb : processBlocks d r.content r.content conv with
      | inr p => rw [hpb] at h; simp at h
      | inl p =>
        obtain ⟨evs0, conv0⟩ := p
        rw [hpb] at h
        dsimp only at h
        have hsf0 : startsFollowed d evs0 :=
          processBlocks_inl_startsFollowed d r.content r.content conv evs0 conv0 hpb
        by_cases hstop : stopCond r
        · rw [if_pos hstop] at h
          simp only [RunOutcome.finished.injEq] at h
          obtain ⟨h1, h2⟩ := h
          subst h1
          exact startsFollowed_append d evs0 [.messageDone] hsf0 (startsFollowed_messageDone d)
        · rw [if_neg hstop] at h
          cases hrec : run_agent_stream d rest conv0 with
          | finished evs1 c1 =>
            rw [hrec] at h
            simp only [RunOutcome.withEvents, RunOutcome.finished.injEq] at h
            obtain ⟨h1, h2⟩ := h
            subst h1
            exact startsFollowed_append d evs0 evs1 hsf0 (ih conv0 evs1 c1 hrec)
          | raised evs1 m => rw [hrec] at h; simp [RunOutcome.withEvents] at h
          | outOfScript evs1 c1 => rw [hrec] at h; simp [RunOutcome.withEvents] at h

/-! ## Concrete data for evaluating the theorems -/

/-- A concrete instantiation of the mock data documents, used to evaluate
the theorems on explicit inputs. -/
def sampleData : MockData :=
  ⟨.obj [("account", .str "acme")],
   [.str "camp1", .str "camp2"],
   .arr [],
   ⟨.str "no_purchase_90d tiers", .str "all_customers tiers"⟩,
   .obj [("period", .str "last_30d")]⟩

/-! ## The claims -/

/-- **C1.** The agent loop terminates exactly when the round's stop reason
is `"end_turn"` or the response contained no tool-use block — otherwise it
performs another model round with the mutated conversation — and every
terminating run emits `message_done` exactly once, as the final event of
the stream. -/
theorem agent_loop_termination (d : MockData) (script rest : List ModelRound)
    (r : Response) (conv conv2 conv0 conv' : List Message)
    (evs evs0 : List AgentEvent) :
    (run_agent_stream d script conv = .finished evs conv' →
      evs.countP isMessageDone = 1 ∧ evs.getLast? = some .messageDone) ∧
    (processBlocks d r.content r.content conv2 = .inl (evs0, conv0) →
      run_agent_stream d (.ok r :: rest) conv2 =
        if stopCond r then .finished (evs0 ++ [.messageDone]) conv0
        else (run_agent_stream d rest conv0).withEvents evs0) := by
  refine ⟨run_finished_messageDone d script conv evs conv', ?_⟩
  intro hpb
  simp only [run_agent_stream, hpb]

/-- Witness: a one-round `end_turn` script terminates with `message_done`
last and exactly once, and the loop steps as characterized. -/
theorem agent_loop_termination_witness :
    ([AgentEvent.textDelta "hi", AgentEvent.messageDone].countP isMessageDone = 1 ∧
      [AgentEvent.textDelta "hi", AgentEvent.messageDone].getLast? =
        some AgentEvent.messageDone) ∧
    run_agent_stream sampleData [.ok ⟨[.text "hi"], "end_turn"⟩] [] =
      .finished [.textDelta "hi", .messageDone] [] :=
  ⟨(agent_loop_termination sampleData [.ok ⟨[.text "hi"], "end_turn"⟩] []
      ⟨[.text "hi"], "end_turn"⟩ [] [] [] [] [.textDelta "hi", .messageDone] []).1 rfl,
   (agent_loop_termination sampleData [.ok ⟨[.text "hi"], "end_turn"⟩] []
      ⟨[.text "hi"], "end_turn"⟩ [] [] [] [] [.textDelta "hi", .messageDone]
      [.textDelta "hi"]).2 rfl⟩

/-- **C2.** In the event stream of a terminating run, every
`tool_call_start` is immediately followed by its matching `tool_result`
(same tool, carrying the dispatched handler's output) with no event in
between; within a round, events are exactly the per-block events in block
order, so multiple tool-use blocks are dispatched synchronously and
sequentially, never in parallel or deferred. -/
theorem tool_call_start_immediately_followed (d : MockData) (script : List ModelRound)
    (conv conv2 conv0 conv' : List Message) (evs evs0 : List AgentEvent)
    (full blocks : List Block) :
    (run_agent_stream d script conv = .finished evs conv' → startsFollowed d evs) ∧
    (processBlocks d full blocks conv2 = .inl (evs0, conv0) →
      evs0 = blocks.flatMap (blockEvents d)) :=
  ⟨run_finished_startsFollowed d script conv evs conv',
   processBlocks_inl_events d full blocks conv2 evs0 conv0⟩

/-- Witness: a run with one `get_account_context` call satisfies the
immediate-follow property, and a concrete round's events are the per-block
events in order. -/
theorem tool_call_start_immediately_followed_witness :
    startsFollowed sampleData
      [.toolCallStart "get_account_context" [],
       .toolResult "get_account_context" (.obj [("account", .str "acme")]),
       .textDelta "done", .messageDone] ∧
    [AgentEvent.toolCallStart "get_account_context" [],
     AgentEvent.toolResult "get_account_context" (.obj [("account", .str "acme")])] =
      [Block.toolUse "t1" "get_account_context" []].flatMap (blockEvents sampleData) :=
  ⟨(tool_call_start_immediately_followed sampleData
      [.ok ⟨[.toolUse "t1" "get_account_context" []], "tool_use"⟩,
       .ok ⟨[.text "done"], "end_turn"⟩]
      [] [] []
      [assistantMsg [.toolUse "t1" "get_account_context" []],
       toolResultMsg "t1" (.obj [("account", .str "acme")])]
      [.toolCallStart "get_account_context" [],
       .toolResult "get_account_context" (.obj [("account", .str "acme")]),
       .textDelta "done", .messageDone]
      [] [] []).1 rfl,
   (tool_call_start_immediately_followed sampleData [] [] []
      [assistantMsg [], toolResultMsg "t1" (.obj [("account", .str "acme")])] [] []
      [.toolCallStart "get_account_context" [],
       .toolResult "get_account_context" (.obj [("account", .str "acme")])]
      [] [.toolUse "t1" "get_account_context" []]).2 rfl⟩

/-- **C3.** For every tool-use block processed in a round, exactly two
entries are appended to the conversation, in order: the assistant message
whose content is the round's full response content verbatim, then a
synthetic user message whose content is a single tool-result item carrying
the tool's output serialized as JSON text and tagged with the originating
tool-call id; per call, also when a round has several tool-use blocks. -/
theorem conversation_append_per_tool_call (d : MockData) (full blocks : List Block)
    (conv : List Message) (evs : List AgentEvent) (conv' : List Message)
    (h : processBlocks d full blocks conv = .inl (evs, conv')) :
    conv' = conv ++ blocks.flatMap (blockAppends d full) ∧
    ∀ id name inp result, handle_tool_call d name inp = .ok result →
      blockAppends d full (.toolUse id name inp) =
        [assistantMsg full, toolResultMsg id result] := by
  refine ⟨processBlocks_inl_conv d full blocks conv evs conv' h, ?_⟩
  intro id name inp result hok
  simp [blockAppends, hok]

/-- Witness: a concrete round with one tool-use block appends exactly the
assistant message and the synthetic tool-result message. -/
theorem conversation_append_per_tool_call_witness :
    [assistantMsg [Block.toolUse "t1" "get_account_context" []],
     toolResultMsg "t1" (.obj [("account", .str "acme")])] =
      [] ++ [Block.toolUse "t1" "get_account_context" []].flatMap
        (blockAppends sampleData [Block.toolUse "t1" "get_account_context" []]) ∧
    blockAppends sampleData [Block.toolUse "t1" "get_account_context" []]
        (.toolUse "t1" "get_account_context" []) =
      [assistantMsg [Block.toolUse "t1" "get_account_context" []],
       toolResultMsg "t1" (.obj [("account", .str "acme")])] :=
  ⟨(conversation_append_per_tool_call sampleData
      [Block.toolUse "t1" "get_account_context" []]
      [Block.toolUse "t1" "get_account_context" []] []
      [.toolCallStart "get_account_context" [],
       .toolResult "get_account_context" (.obj [("account", .str "acme")])]
      [assistantMsg [Block.toolUse "t1" "get_account_context" []],
       toolResultMsg "t1" (.obj [("account", .str "acme")])] rfl).1,
   (conversation_append_per_tool_call sampleData
      [Block.toolUse "t1" "get_account_context" []]
      [Block.toolUse "t1" "get_account_context" []] []
      [.toolCallStart "get_account_context" [],
       .toolResult "get_account_context" (.obj [("account", .str "acme")])]
      [assistantMsg [Block.toolUse "t1" "get_account_context" []],
       toolResultMsg "t1" (.obj [("account", .str "acme")])] rfl).2
      "t1" "get_account_context" [] (.obj [("account", .str "acme")]) rfl⟩

/-! ## Properties of the stream adapter -/

/-- A string consisting of a body followed by a single terminating
newline. -/
def newlineTerminated (l : String) : Prop :=
  ∃ s, l = s ++ "\n"

/-- Number of wire records written per agent event (`message_done` yields
the `e`/`d` pair, every other event exactly one record). -/
def recordWeight : AgentEvent → Nat
  | .messageDone => 2
  | _ => 1

theorem streamRecords_length : ∀ (evs : List AgentEvent) (n : Nat),
    (streamRecords evs n).length = (evs.map recordWeight).sum := by
  intro evs
  induction evs with
  | nil => intro n; simp [streamRecords]
  | cons e rest ih =>
    intro n
    cases e <;> simp [streamRecords, eventRecords, recordWeight, ih] <;> omega

theorem streamLines_newlineTerminated (evs : List AgentEvent) (err : Option String) :
    ∀ l ∈ streamLines evs err, newlineTerminated l := by
  intro l hl
  simp only [streamLines, List.mem_map] at hl
  obtain ⟨rec, _, hrec⟩ := hl
  obtain ⟨tag, payload⟩ := rec
  exact ⟨tag ++ ":" ++ Json.dumps payload, hrec.symm⟩

/-- **C4.** The stream adapter writes newline-terminated wire records per
agent event with the documented mapping: `text_delta` → one `0` record
whose payload is the JSON string of the chunk; `tool_call_start` → one `9`
record with `{toolCallId, toolName, args}`; `tool_result` → one `a` record
with `{toolCallId, toolName, result}`; `message_done` → an `e` record then
a `d` record, each carrying a finish-reason object on its own line. -/
theorem stream_adapter_mapping (evs rest : List AgentEvent) (s t : String)
    (inp : ToolInput) (r : Json) (n : Nat) :
    (streamLines evs none).length = (evs.map recordWeight).sum ∧
    (∀ l ∈ streamLines evs none, newlineTerminated l) ∧
    streamRecords (.textDelta s :: rest) n = ("0", .str s) :: streamRecords rest n ∧
    streamRecords (.toolCallStart t inp :: rest) n =
      ("9", .obj [("toolCallId", .str (uuid4 n)), ("toolName", .str t), ("args", .obj inp)]) ::
        streamRecords rest (n + 1) ∧
    streamRecords (.toolResult t r :: rest) n =
      ("a", .obj [("toolCallId", .str (uuid4 n)), ("toolName", .str t), ("result", r)]) ::
        streamRecords rest (n + 1) ∧
    streamRecords (.messageDone :: rest) n =
      ("e", .obj [("finishReason", .str "stop"),
                  ("usage", .obj [("promptTokens", .num 0), ("completionTokens", .num 0)])]) ::
      ("d", .obj [("finishReason", .str "stop")]) :: streamRecords rest n := by
  refine ⟨?_, streamLines_newlineTerminated evs none, rfl, rfl, rfl, rfl⟩
  simp [streamLines, stream_response, streamRecords_length]

/-- Witness: the mapping evaluated on a concrete single-text stream. -/
theorem stream_adapter_mapping_witness :
    newlineTerminated ("0:" ++ Json.dumps (.str "hi") ++ "\n") ∧
    (streamLines [.textDelta "hi"] none).length =
      ([AgentEvent.textDelta "hi"].map recordWeight).sum :=
  ⟨(stream_adapter_mapping [.textDelta "hi"] [] "" "" [] .null 0).2.1
      ("0:" ++ Json.dumps (.str "hi") ++ "\n") (List.mem_singleton.mpr rfl),
   (stream_adapter_mapping [.textDelta "hi"] [] "" "" [] .null 0).1⟩

/-- The wire lines a client receives for a completed or failed run. -/
def wireOutput : RunOutcome → List String
  | .finished evs _ => streamLines evs none
  | .raised evs m => streamLines evs (some m)
  | .outOfScript evs _ => streamLines evs none

/-- **C5.** When consuming the event stream raises, the adapter still
terminates the wire stream gracefully: after the records of the delivered
events it emits one `0` record with a human-readable error annotation,
then an `e` and a `d` record carrying the error finish reason; a backend
failure on the first model round trip yields exactly that error triple
with zero tool-call (`9`) records. -/
theorem stream_adapter_error_termination (d : MockData) (evs : List AgentEvent)
    (msg : String) (script : List ModelRound) (conv : List Message) :
    streamLines evs (some msg) = streamLines evs none ++
      ["0:" ++ Json.dumps (.str ("\n\n⚠️ Error: " ++ msg)) ++ "\n",
       "e:" ++ Json.dumps (.obj [("finishReason", .str "error")]) ++ "\n",
       "d:" ++ Json.dumps (.obj [("finishReason", .str "error")]) ++ "\n"] ∧
    (run_agent_stream d script conv = .raised [] msg →
      wireOutput (run_agent_stream d script conv) =
        ["0:" ++ Json.dumps (.str ("\n\n⚠️ Error: " ++ msg)) ++ "\n",
         "e:" ++ Json.dumps (.obj [("finishReason", .str "error")]) ++ "\n",
         "d:" ++ Json.dumps (.obj [("finishReason", .str "error")]) ++ "\n"] ∧
      (stream_response [] (some msg)).countP (fun rec => rec.1 == "9") = 0) := by
  constructor
  · simp [streamLines, stream_response, errorRecords, serializeRecord]
  · intro h
    rw [h]
    exact ⟨rfl, rfl⟩

/-- Witness: a backend failure on the first round trip, evaluated
concretely. -/
theorem stream_adapter_error_termination_witness :
    wireOutput (run_agent_stream sampleData [.error "boom"] []) =
      ["0:" ++ Json.dumps (.str ("\n\n⚠️ Error: " ++ "boom")) ++ "\n",
       "e:" ++ Json.dumps (.obj [("finishReason", .str "error")]) ++ "\n",
       "d:" ++ Json.dumps (.obj [("finishReason", .str "error")]) ++ "\n"] ∧
    (stream_response [] (some "boom")).countP (fun rec => rec.1 == "9") = 0 :=
  (stream_adapter_error_termination sampleData [] "boom" [.error "boom"] []).2 rfl

/-- The `toolCallId` field of a wire record's payload, when present. -/
def recordToolCallId (rec : WireRecord) : Option String :=
  match rec.2 with
  | .obj fields =>
    match fields.lookup "toolCallId" with
    | some (.str s) => some s
    | _ => none
  | _ => none

/-- All `toolCallId`s carried by a record list, in output order. -/
def toolCallIds (rs : List WireRecord) : List String :=
  rs.filterMap recordToolCallId

/-- Number of uuids the adapter generates while relaying an event list. -/
def uuidCount : List AgentEvent → Nat
  | [] => 0
  | .toolCallStart _ _ :: rest => uuidCount rest + 1
  | .toolResult _ _ :: rest => uuidCount rest + 1
  | .textDelta _ :: rest => uuidCount rest
  | .messageDone :: rest => uuidCount rest

theorem recordToolCallId_text (s : String) : recordToolCallId ("0", .str s) = none := rfl

theorem recordToolCallId_start (t : String) (inp : ToolInput) (n : Nat) :
    recordToolCallId
      ("9", .obj [("toolCallId", .str (uuid4 n)), ("toolName", .str t), ("args", .obj inp)]) =
      some (uuid4 n) := rfl

theorem recordToolCallId_result (t : String) (r : Json) (n : Nat) :
    recordToolCallId
      ("a", .obj [("toolCallId", .str (uuid4 n)), ("toolName", .str t), ("result", r)]) =
      some (uuid4 n) := rfl

theorem recordToolCallId_finish :
    recordToolCallId ("e", .obj [("finishReason", .str "stop"),
      ("usage", .obj [("promptTokens", .num 0), ("completionTokens", .num 0)])]) = none ∧
    recordToolCallId ("d", .obj [("finishReason", .str "stop")]) = none := ⟨rfl, rfl⟩

theorem uuid4_injective : Function.Injective uuid4 := by
  intro a b h
  have h2 := congrArg (fun s : String => s.data.length) h
  simp [uuid4] at h2
  omega

/-- **C6 counterexample.** For a concrete relayed tool call, the `a`
(tool-result) record carries toolCallId `uuid4 1`, different from its `9`
(tool-call-start) record's toolCallId `uuid4 0`: the two records of one
call do not share an id. -/
theorem tool_result_id_mismatch_cex :
    toolCallIds (streamRecords
      [.toolCallStart "get_account_context" [],
       .toolResult "get_account_context" (.obj [("account", .str "acme")])] 0) =
      [uuid4 0, uuid4 1] ∧ uuid4 0 ≠ uuid4 1 := by
  refine ⟨rfl, ?_⟩
  intro h
  have h2 := congrArg (fun s : String => s.data.length) h
  simp [uuid4] at h2

/-- **C6 (amended).** Every `9` record and every `a` record carries a
freshly generated toolCallId: the ids are consumed from an injective
generator in output order, so all toolCallIds of a stream are pairwise
distinct — in particular the `a` record of a call never repeats the id of
its `9` record. -/
theorem tool_call_ids_fresh_distinct (evs : List AgentEvent) (n : Nat) :
    toolCallIds (streamRecords evs n) = (List.range' n (uuidCount evs)).map uuid4 ∧
    (toolCallIds (streamRecords evs n)).Nodup := by
  have key : ∀ (evs : List AgentEvent) (n : Nat),
      toolCallIds (streamRecords evs n) = (List.range' n (uuidCount evs)).map uuid4 := by
    intro evs
    induction evs with
    | nil => intro n; simp [streamRecords, toolCallIds, uuidCount]
    | cons e rest ih =>
      intro n
      have ih2 : ∀ m, List.filterMap recordToolCallId (streamRecords rest m) =
          List.map uuid4 (List.range' m (uuidCount rest)) := ih
      cases e <;>
        simp [streamRecords, eventRecords, toolCallIds, uuidCount,
              List.filterMap_cons, recordToolCallId_text, recordToolCallId_start,
              recordToolCallId_result, recordToolCallId_finish.1, recordToolCallId_finish.2,
              ih2, List.range'_succ]
  refine ⟨key evs n, ?_⟩
  rw [key evs n]
  exact (List.nodup_range' n (uuidCount evs)).map uuid4_injective

/-! ## Properties of tool dispatch, the loop on unknown tools, the chat
endpoint and segmentation -/

/-- **C7 counterexample.** Dispatching the known tool `segment_contacts`
with an empty input dict raises `KeyError('base_filter')` past the
dispatch boundary instead of returning a result value. -/
theorem handle_tool_call_raises_cex :
    handle_tool_call sampleData "segment_contacts" [] =
      .error (.keyError "base_filter") := rfl

/-- **C7 (amended).** `handle_tool_call` returns a result value without
raising for every unknown tool name (an `error` object) and for the known
tools whose handlers read their input with defaults; only the handlers of
`get_campaign_history`, `segment_contacts`, `create_campaign_draft` and
`create_automation_draft` can raise past the dispatch boundary, notably
when the input is missing a field the handler requires. -/
theorem handle_tool_call_raise_characterization (d : MockData) (name : String)
    (input : ToolInput) (e : PyError) :
    (handle_tool_call d name input = .error e →
      name ∈ ["get_campaign_history", "segment_contacts",
              "create_campaign_draft", "create_automation_draft"]) ∧
    (name ∉ ["get_account_context", "get_campaign_history", "get_active_automations",
             "segment_contacts", "create_campaign_draft", "create_automation_draft",
             "get_campaign_performance"] →
      handle_tool_call d name input =
        .ok (.obj [("error", .str ("Unknown tool: " ++ name))])) := by
  constructor
  · intro herr
    rw [handle_tool_call] at herr
    split_ifs at herr with h1 h2 h3 h4 h5 h6 h7 <;> simp_all
  · intro hnot
    simp only [List.mem_cons, List.not_mem_nil, or_false, not_or] at hnot
    obtain ⟨n1, n2, n3, n4, n5, n6, n7⟩ := hnot
    rw [handle_tool_call, if_neg n1, if_neg n2, if_neg n3, if_neg n4, if_neg n5,
        if_neg n6, if_neg n7]

/-- Witness: the raise characterization evaluated at `segment_contacts`
with empty input, and the unknown-tool branch at `frobnicate`. -/
theorem handle_tool_call_raise_characterization_witness :
    "segment_contacts" ∈ ["get_campaign_history", "segment_contacts",
        "create_campaign_draft", "create_automation_draft"] ∧
    handle_tool_call sampleData "frobnicate" [] =
      .ok (.obj [("error", .str ("Unknown tool: " ++ "frobnicate"))]) :=
  ⟨(handle_tool_call_raise_characterization sampleData "segment_contacts" []
      (.keyError "base_filter")).1 rfl,
   (handle_tool_call_raise_characterization sampleData "frobnicate" []
      (.keyError "")).2 (by decide)⟩

/-- **C8.** Dispatching an unrecognized tool name (`"frobnicate"`) with
any input returns the normal result value
`{"error": "Unknown tool: frobnicate"}` rather than raising, and the
agent loop does not terminate the run on such a result: it appends the
error result to the conversation as a tool result and performs the next
model round. -/
theorem unknown_tool_normal_result_loop_continues (d : MockData)
    (input : ToolInput) (rest : List ModelRound) (conv : List Message) (id : String) :
    handle_tool_call d "frobnicate" input =
      .ok (.obj [("error", .str "Unknown tool: frobnicate")]) ∧
    run_agent_stream d (.ok ⟨[.toolUse id "frobnicate" input], "tool_use"⟩ :: rest) conv =
      (run_agent_stream d rest
        (conv ++ [assistantMsg [.toolUse id "frobnicate" input],
                  toolResultMsg id (.obj [("error", .str "Unknown tool: frobnicate")])])).withEvents
        [.toolCallStart "frobnicate" input,
         .toolResult "frobnicate" (.obj [("error", .str "Unknown tool: frobnicate")])] :=
  ⟨rfl, rfl⟩

/-- **C9 counterexample.** A request on a store already holding history
for `"conv-1"`: the history handed to the agent loop contains only the
request body's message — the stored message is not loaded — and the store
comes back unchanged — nothing is appended. -/
theorem conversation_store_unused_cex :
    (chat [("conv-1", [⟨"user", MsgContent.raw (.str "earlier message")⟩])]
        [.obj [("role", .str "user"), ("content", .str "hi")]]).2 =
      .ok [⟨"user", MsgContent.raw (.str "hi")⟩] ∧
    (chat [("conv-1", [⟨"user", MsgContent.raw (.str "earlier message")⟩])]
        [.obj [("role", .str "user"), ("content", .str "hi")]]).1 =
      [("conv-1", [⟨"user", MsgContent.raw (.str "earlier message")⟩])] := ⟨rfl, rfl⟩

/-- **C9 (amended).** The chat endpoint derives the history handed to the
agent loop entirely from the request body's messages array: the result is
independent of the conversation store's contents, and the store is
returned unchanged — nothing is loaded from it and nothing is appended to
it, so no history persists server-side between requests. -/
theorem chat_ignores_store (store store2 : ConversationStore) (messages : List Json) :
    (chat store messages).1 = store ∧
    (chat store messages).2 = (chat store2 messages).2 ∧
    (chat store messages).2 = anthropicMessages messages := ⟨rfl, rfl, rfl⟩

/-- `eqStr` detects exactly the equal string value. -/
theorem Json.eqStr_eq_true_iff (j : Json) (t : String) :
    j.eqStr t = true ↔ j = .str t := by
  cases j <;> simp [Json.eqStr]

/-- **C10.** `segment_contacts` returns the no-purchase-90-day precomputed
tier set whenever the base filter's `type` equals `"no_purchase"` and the
all-customers tier set for any other type; the base-filter type is the
sole selector — two inputs agreeing on it produce identical results,
regardless of the segmentation axis or any other field. -/
theorem segment_contacts_selector (d : MockData) (bf bf2 : ToolInput) (ax ax2 : Json) :
    (ToolInput.getD bf "type" (.str "all_subscribers") = .str "no_purchase" →
      segment_contacts d (.obj bf) ax = .ok d.segmentation.no_purchase_90d) ∧
    (ToolInput.getD bf "type" (.str "all_subscribers") ≠ .str "no_purchase" →
      segment_contacts d (.obj bf) ax = .ok d.segmentation.all_customers) ∧
    (ToolInput.getD bf "type" (.str "all_subscribers") =
        ToolInput.getD bf2 "type" (.str "all_subscribers") →
      segment_contacts d (.obj bf) ax = segment_contacts d (.obj bf2) ax2) := by
  refine ⟨?_, ?_, ?_⟩
  · intro h
    simp [segment_contacts, baseFilterType, h, Json.eqStr]
  · intro h
    have hf : (ToolInput.getD bf "type" (.str "all_subscribers")).eqStr "no_purchase" = false := by
      rw [← Bool.not_eq_true]
      intro hx
      exact h ((Json.eqStr_eq_true_iff _ _).mp hx)
    simp [segment_contacts, baseFilterType, hf]
  · intro h
    by_cases hnp : ToolInput.getD bf "type" (.str "all_subscribers") = .str "no_purchase"
    · simp [segment_contacts, baseFilterType, hnp, ← h, Json.eqStr]
    · have hf : (ToolInput.getD bf "type" (.str "all_subscribers")).eqStr "no_purchase" = false := by
        rw [← Bool.not_eq_true]
        intro hx
        exact hnp ((Json.eqStr_eq_true_iff _ _).mp hx)
      have hf2 : (ToolInput.getD bf2 "type" (.str "all_subscribers")).eqStr "no_purchase" = false := by
        rw [← h]
        exact hf
      simp [segment_contacts, baseFilterType, hf, hf2]

/-- Witness: the selector evaluated on the two documented inputs. -/
theorem segment_contacts_selector_witness :
    segment_contacts sampleData (.obj [("type", .str "no_purchase")]) (.str "ltv") =
      .ok sampleData.segmentation.no_purchase_90d ∧
    segment_contacts sampleData (.obj [("type", .str "all_subscribers")]) (.str "engagement") =
      .ok sampleData.segmentation.all_customers :=
  ⟨(segment_contacts_selector sampleData [("type", .str "no_purchase")] []
      (.str "ltv") .null).1 rfl,
   (segment_contacts_selector sampleData [("type", .str "all_subscribers")] []
      (.str "engagement") .null).2.1 (by simp [ToolInput.getD])⟩
